import Mathlib

/-!
Verification development for the EPP extension layer of `instant-epp`
(`src/extensions/{composite,charge,fee,fee07,launch}.rs`): the extension
contract, the command–extension pairing relation (`Transaction` impls), the
composite combinators, and the scalar codecs, embedded shallowly in Lean.
-/

namespace InstantEpp

/-- Command kinds from `crate::domain` that the extension layer pairs with
(`DomainCheck`, `DomainCreate`, `DomainRenew`, `DomainUpdate`,
`DomainTransfer`). -/
inductive Cmd where
  | domainCheck
  | domainCreate
  | domainRenew
  | domainUpdate
  | domainTransfer
deriving DecidableEq, Repr

/-- The extension types declared in the extension layer, as type descriptors:
the simple extensions of `charge.rs`, `fee.rs`, `fee07.rs`, `launch.rs`, and
the three generic composite combinators of `composite.rs`, whose children are
arbitrary extension types (the `E1: Extension, E2: Extension` bounds). -/
inductive ExtTy where
  | chargeExtension
  | chargeAgreement
  | feeCheck
  | feeCreate
  | feeRenew
  | fee07Check
  | fee07Create
  | fee07Renew
  | fee07Transfer
  | launchCheck
  | launchCreate
  | compositeExt (e1 e2 : ExtTy)
  | compositeFirstResp (e1 e2 : ExtTy)
  | compositeSecondResp (e1 e2 : ExtTy)
deriving DecidableEq, Repr

/-- The response types (`type Response = ...`) declared by the `Extension`
impls of the extension layer, plus the `NoExtension` sentinel from
`crate::common`. -/
inductive RespTy where
  | noExtension
  | chargeCheckData
  | feeCheckData
  | feeCreateData
  | feeRenewData
  | fee07CheckData
  | fee07CreateData
  | fee07RenewData
  | fee07TransferData
  | launchCheckData
deriving DecidableEq, Repr

/-- The `type Response` associated type of each extension's `Extension` impl:
`charge.rs` lines 12-15 and 211-214, `fee.rs` lines 25-27, 267-269 and
335-337, `fee07.rs` lines 122-124 and 401-409, `launch.rs` lines 19-25, and
`composite.rs` lines 31-35 (`NoExtension`), 64-68 (`E2::Response`) and
99-103 (`E1::Response`). -/
def responseTy : ExtTy → RespTy
  | .chargeExtension => .chargeCheckData
  | .chargeAgreement => .noExtension
  | .feeCheck => .feeCheckData
  | .feeCreate => .feeCreateData
  | .feeRenew => .feeRenewData
  | .fee07Check => .fee07CheckData
  | .fee07Create => .fee07CreateData
  | .fee07Renew => .fee07RenewData
  | .fee07Transfer => .fee07TransferData
  | .launchCheck => .launchCheckData
  | .launchCreate => .noExtension
  | .compositeExt _ _ => .noExtension
  | .compositeFirstResp e1 _ => responseTy e1
  | .compositeSecondResp _ e2 => responseTy e2

/-- The command–extension pairing relation: `transaction c e = true` exactly
when the extension layer declares `impl Transaction<e> for c`. The listed
pairs are the `Transaction` impls of `charge.rs` (lines 17, 216-217),
`fee.rs` (lines 30, 272, 340), `fee07.rs` (lines 126, 411-413), `launch.rs`
(lines 16-17) and `composite.rs` (lines 37-38, 70-73, 105-118); the
composite impls are generic in the children (`E1: Extension, E2: Extension`
with no further bound), so the children are ignored. Every pair without an
impl is `false`. -/
def transaction : Cmd → ExtTy → Bool
  | .domainCheck, .chargeExtension => true
  | .domainCreate, .chargeAgreement => true
  | .domainRenew, .chargeAgreement => true
  | .domainCheck, .feeCheck => true
  | .domainCreate, .feeCreate => true
  | .domainRenew, .feeRenew => true
  | .domainCheck, .fee07Check => true
  | .domainCreate, .fee07Create => true
  | .domainRenew, .fee07Renew => true
  | .domainTransfer, .fee07Transfer => true
  | .domainCheck, .launchCheck => true
  | .domainCreate, .launchCreate => true
  | .domainUpdate, .compositeExt _ _ => true
  | .domainCreate, .compositeExt _ _ => true
  | .domainCheck, .compositeSecondResp _ _ => true
  | .domainCheck, .compositeFirstResp _ _ => true
  | .domainCreate, .compositeFirstResp _ _ => true
  | .domainUpdate, .compositeFirstResp _ _ => true
  | _, _ => false

/-- Eligibility error: the `(command, extension)` pair has no `Transaction`
impl (in Rust this is a compile error at the call site, before any encoding
exists). -/
inductive EligibilityError where
  | notPaired (c : Cmd) (e : ExtTy)
deriving DecidableEq, Repr

/-- Attaching an extension type to a command: permitted exactly when the
pairing relation holds; otherwise rejected with an eligibility error and no
encoding is performed (this function never serializes anything). In Rust the
check is the trait bound `C: Transaction<E>` resolved at compile time. -/
def attachExtension (c : Cmd) (e : ExtTy) : Except EligibilityError Unit :=
  if transaction c e then Except.ok () else Except.error (.notPaired c e)

/-- Extension values as seen by the composite serializers: a leaf is any
non-composite extension instance, carrying its transmission predicate
(`do_send()`, cf. spec section 4.3: fixed or computed at construction time)
and the outcome of its own `ToXml::serialize` (the namespace-qualified
elements it writes, or an error); the three composite constructors are the
structs of `composite.rs`, each holding `first` and `second` child values. -/
inductive Ext where
  | leaf (send : Bool) (out : Except String (List String))
  | compositeExt (first second : Ext)
  | compositeFirstResp (first second : Ext)
  | compositeSecondResp (first second : Ext)

/-- The transmission predicate `do_send()`: for a leaf, its instance
predicate; for each composite struct, constantly `true` per `const DO_SEND:
bool = true` in `composite.rs` lines 32, 65 and 100 (the trait's `do_send`
returns the type's `DO_SEND` constant, spec section 4.3). -/
def Ext.do_send : Ext → Bool
  | .leaf send _ => send
  | .compositeExt _ _ => true
  | .compositeFirstResp _ _ => true
  | .compositeSecondResp _ _ => true

/-- Method `ToXml::serialize` of the three composite structs (`composite.rs` lines
15-29, 48-62, 83-97): for each child in order, if `child.do_send()` then
serialize the child into the shared serializer, propagating its error with
`?`; the composite writes no element of its own around the children. Output
is modelled as the list of elements appended to the shared stream. -/
def Ext.serialize : Ext → Except String (List String)
  | .leaf _ out => out
  | .compositeExt f s => do
      let a ← if f.do_send then f.serialize else pure []
      let b ← if s.do_send then s.serialize else pure []
      pure (a ++ b)
  | .compositeFirstResp f s => do
      let a ← if f.do_send then f.serialize else pure []
      let b ← if s.do_send then s.serialize else pure []
      pure (a ++ b)
  | .compositeSecondResp f s => do
      let a ← if f.do_send then f.serialize else pure []
      let b ← if s.do_send then s.serialize else pure []
      pure (a ++ b)

/-- Every leaf of the tree whose transmission predicate is `true` has a
successful serialization. -/
def Ext.leavesOk : Ext → Bool
  | .leaf send out => !send || (match out with | .ok _ => true | .error _ => false)
  | .compositeExt f s => f.leavesOk && s.leavesOk
  | .compositeFirstResp f s => f.leavesOk && s.leavesOk
  | .compositeSecondResp f s => f.leavesOk && s.leavesOk

/-- The concatenation, in left-to-right declaration order, of the output of
exactly those leaves whose transmission predicate is `true`. -/
def Ext.sentLeafOutput : Ext → List String
  | .leaf send out =>
      if send then (match out with | .ok l => l | .error _ => []) else []
  | .compositeExt f s => f.sentLeafOutput ++ s.sentLeafOutput
  | .compositeFirstResp f s => f.sentLeafOutput ++ s.sentLeafOutput
  | .compositeSecondResp f s => f.sentLeafOutput ++ s.sentLeafOutput

lemma except_pure_eq (l : List String) :
    (pure l : Except String (List String)) = Except.ok l := rfl

lemma except_ok_bind {α β ε : Type} (a : α) (f : α → Except ε β) :
    (Except.ok a : Except ε α) >>= f = f a := rfl

lemma Ext.sentLeafOutput_of_not_send (e : Ext) (h : e.do_send = false) :
    e.sentLeafOutput = [] := by
  cases e with
  | leaf send out => simp [Ext.do_send] at h; simp [Ext.sentLeafOutput, h]
  | compositeExt f s => simp [Ext.do_send] at h
  | compositeFirstResp f s => simp [Ext.do_send] at h
  | compositeSecondResp f s => simp [Ext.do_send] at h

/-- C1: for each of the three composite combinators, encoding serializes the
first child iff its transmission predicate is true, then the second child iff
its transmission predicate is true, in that order, with no wrapper element
around either child (the output is the plain concatenation of the children's
own elements); if both predicates are false the encoding succeeds and emits
nothing, raising no error (the children's serializers are never invoked). -/
theorem composite_serialize_children (e1 e2 : Ext) :
    (e1.do_send = false → e2.do_send = false →
      (Ext.compositeExt e1 e2).serialize = Except.ok [] ∧
      (Ext.compositeFirstResp e1 e2).serialize = Except.ok [] ∧
      (Ext.compositeSecondResp e1 e2).serialize = Except.ok []) ∧
    (∀ o1 o2 : List String,
      e1.serialize = Except.ok o1 → e2.serialize = Except.ok o2 →
      (Ext.compositeExt e1 e2).serialize =
        Except.ok ((if e1.do_send then o1 else []) ++ (if e2.do_send then o2 else [])) ∧
      (Ext.compositeFirstResp e1 e2).serialize =
        Except.ok ((if e1.do_send then o1 else []) ++ (if e2.do_send then o2 else [])) ∧
      (Ext.compositeSecondResp e1 e2).serialize =
        Except.ok ((if e1.do_send then o1 else []) ++ (if e2.do_send then o2 else []))) := by
  constructor
  · intro h1 h2
    refine ⟨?_, ?_, ?_⟩ <;>
      simp [Ext.serialize, h1, h2, except_pure_eq, except_ok_bind]
  · intro o1 o2 h1 h2
    refine ⟨?_, ?_, ?_⟩ <;>
      cases hf : e1.do_send <;> cases hs : e2.do_send <;>
        simp [Ext.serialize, hf, hs, h1, h2, except_pure_eq, except_ok_bind]

/-- Witness for C1 at concrete inputs: with both predicates false the
composite emits nothing and succeeds even though both children's serializers
would fail; with first-predicate false and second-predicate true only the
second child's element appears. -/
theorem composite_serialize_children_witness :
    (Ext.compositeExt (.leaf false (.error ("a"))) (.leaf false (.error ("b")))).serialize =
      Except.ok [] ∧
    (Ext.compositeExt (.leaf false (.ok ["p"])) (.leaf true (.ok ["q"]))).serialize =
      Except.ok ["q"] :=
  ⟨((composite_serialize_children (.leaf false (.error ("a")))
      (.leaf false (.error ("b")))).1 rfl rfl).1,
   ((composite_serialize_children (.leaf false (.ok ["p"]))
      (.leaf true (.ok ["q"]))).2 ["p"] ["q"] rfl rfl).1⟩

/-- C2: a (command, extension) pair outside the pairing relation is rejected
with an eligibility error before any encoding is attempted; a composite's
legality for a command never depends on its children (the composite
`Transaction` impls are generic over `E1`, `E2`); and composite legality is
not auto-derived from the children's individual eligibility: `fee::Renew` is
eligible on domain renew, yet `CompositeExt<Renew, Renew>` is not. -/
theorem pairing_rejects_undeclared :
    (∀ (c : Cmd) (e : ExtTy), transaction c e = false →
      attachExtension c e = Except.error (.notPaired c e)) ∧
    (∀ (c : Cmd) (e1 e2 f1 f2 : ExtTy),
      transaction c (.compositeExt e1 e2) = transaction c (.compositeExt f1 f2) ∧
      transaction c (.compositeFirstResp e1 e2) = transaction c (.compositeFirstResp f1 f2) ∧
      transaction c (.compositeSecondResp e1 e2) = transaction c (.compositeSecondResp f1 f2)) ∧
    (transaction .domainRenew .feeRenew = true ∧
      transaction .domainRenew (.compositeExt .feeRenew .feeRenew) = false ∧
      attachExtension .domainRenew (.compositeExt .feeRenew .feeRenew) =
        Except.error (.notPaired .domainRenew (.compositeExt .feeRenew .feeRenew))) := by
  refine ⟨?_, ?_, ?_⟩
  · intro c e h
    simp [attachExtension, h]
  · intro c e1 e2 f1 f2
    cases c <;> exact ⟨rfl, rfl, rfl⟩
  · exact ⟨rfl, rfl, rfl⟩

/-- Witness for C2 at a concrete undeclared pair: the launch create extension
on a domain transfer is not in the relation and attaching it is rejected. -/
theorem pairing_rejects_undeclared_witness :
    transaction Cmd.domainTransfer ExtTy.launchCreate = false ∧
    attachExtension Cmd.domainTransfer ExtTy.launchCreate =
      Except.error (.notPaired Cmd.domainTransfer ExtTy.launchCreate) :=
  ⟨by decide,
   pairing_rejects_undeclared.1 Cmd.domainTransfer ExtTy.launchCreate (by decide)⟩

/-- C3: for all extension types `e1`, `e2`, with no condition on their own
eligibility for the command, the pairing relation grants `CompositeExt` on
domain update and domain create, `CompositeExtWithFirstResponse` on domain
check, domain create and domain update, and `CompositeExtWithSecondResponse`
on domain check. -/
theorem composite_pairing_unconditional (e1 e2 : ExtTy) :
    transaction .domainUpdate (.compositeExt e1 e2) = true ∧
    transaction .domainCreate (.compositeExt e1 e2) = true ∧
    transaction .domainCheck (.compositeFirstResp e1 e2) = true ∧
    transaction .domainCreate (.compositeFirstResp e1 e2) = true ∧
    transaction .domainUpdate (.compositeFirstResp e1 e2) = true ∧
    transaction .domainCheck (.compositeSecondResp e1 e2) = true :=
  ⟨rfl, rfl, rfl, rfl, rfl, rfl⟩

lemma Ext.gated_serialize (e : Ext) (h : e.leavesOk = true) :
    (if e.do_send then e.serialize else pure []) = Except.ok e.sentLeafOutput := by
  induction e with
  | leaf send out =>
      cases send with
      | false => simp [Ext.do_send, Ext.sentLeafOutput, except_pure_eq]
      | true =>
          cases out with
          | ok l => simp [Ext.do_send, Ext.serialize, Ext.sentLeafOutput]
          | error m => simp [Ext.leavesOk] at h
  | compositeExt f s ihf ihs =>
      rw [Ext.leavesOk, Bool.and_eq_true] at h
      have hf := ihf h.1
      have hs := ihs h.2
      simp only [Ext.do_send, if_true]
      rw [Ext.serialize]
      cases hf' : f.do_send <;> cases hs' : s.do_send <;>
        simp [hf', hs', except_pure_eq, except_ok_bind] at hf hs ⊢ <;>
        simp [Ext.sentLeafOutput, hf, hs, except_pure_eq, except_ok_bind]
  | compositeFirstResp f s ihf ihs =>
      rw [Ext.leavesOk, Bool.and_eq_true] at h
      have hf := ihf h.1
      have hs := ihs h.2
      simp only [Ext.do_send, if_true]
      rw [Ext.serialize]
      cases hf' : f.do_send <;> cases hs' : s.do_send <;>
        simp [hf', hs', except_pure_eq, except_ok_bind] at hf hs ⊢ <;>
        simp [Ext.sentLeafOutput, hf, hs, except_pure_eq, except_ok_bind]
  | compositeSecondResp f s ihf ihs =>
      rw [Ext.leavesOk, Bool.and_eq_true] at h
      have hf := ihf h.1
      have hs := ihs h.2
      simp only [Ext.do_send, if_true]
      rw [Ext.serialize]
      cases hf' : f.do_send <;> cases hs' : s.do_send <;>
        simp [hf', hs', except_pure_eq, except_ok_bind] at hf hs ⊢ <;>
        simp [Ext.sentLeafOutput, hf, hs, except_pure_eq, except_ok_bind]

/-- C4: every composite combinator's own transmission flag is constantly
true, and for every nesting of composites (children may themselves be
composites to arbitrary depth) whose sent leaves all serialize successfully,
encoding emits exactly the leaves whose transmission predicates are true,
concatenated in left-to-right declaration order — the leaves' individual
predicates remain the effective gate at every level. -/
theorem composite_nested_leaf_order :
    (∀ f s : Ext,
      (Ext.compositeExt f s).do_send = true ∧
      (Ext.compositeFirstResp f s).do_send = true ∧
      (Ext.compositeSecondResp f s).do_send = true) ∧
    (∀ f s : Ext,
      ((Ext.compositeExt f s).leavesOk = true →
        (Ext.compositeExt f s).serialize =
          Except.ok ((Ext.compositeExt f s).sentLeafOutput)) ∧
      ((Ext.compositeFirstResp f s).leavesOk = true →
        (Ext.compositeFirstResp f s).serialize =
          Except.ok ((Ext.compositeFirstResp f s).sentLeafOutput)) ∧
      ((Ext.compositeSecondResp f s).leavesOk = true →
        (Ext.compositeSecondResp f s).serialize =
          Except.ok ((Ext.compositeSecondResp f s).sentLeafOutput))) := by
  refine ⟨fun f s => ⟨rfl, rfl, rfl⟩, fun f s => ⟨?_, ?_, ?_⟩⟩ <;> intro h
  · have := Ext.gated_serialize (Ext.compositeExt f s) h
    simpa [Ext.do_send] using this
  · have := Ext.gated_serialize (Ext.compositeFirstResp f s) h
    simpa [Ext.do_send] using this
  · have := Ext.gated_serialize (Ext.compositeSecondResp f s) h
    simpa [Ext.do_send] using this

/-- Witness for C4 at a concrete three-leaf nesting: a composite whose first
child is itself a composite of a sent leaf and an unsent (failing) leaf, and
whose second child is a sent leaf, emits the two sent leaves in order. -/
theorem composite_nested_leaf_order_witness :
    (Ext.compositeFirstResp
      (Ext.compositeExt (.leaf true (.ok ["a"])) (.leaf false (.error ("x"))))
      (.leaf true (.ok ["c"]))).serialize = Except.ok ["a", "c"] :=
  (composite_nested_leaf_order.2
    (Ext.compositeExt (.leaf true (.ok ["a"])) (.leaf false (.error ("x"))))
    (.leaf true (.ok ["c"]))).2.1 rfl

/-- C5: the three composite combinators differ only in response-type
resolution — `CompositeExt` declares the `NoExtension` sentinel,
`CompositeExtWithFirstResponse` the first child's response type,
`CompositeExtWithSecondResponse` the second child's — while their
serialization and transmission behaviour coincide. -/
theorem composite_response_resolution :
    (∀ t1 t2 : ExtTy,
      responseTy (.compositeExt t1 t2) = RespTy.noExtension ∧
      responseTy (.compositeFirstResp t1 t2) = responseTy t1 ∧
      responseTy (.compositeSecondResp t1 t2) = responseTy t2) ∧
    (∀ e1 e2 : Ext,
      (Ext.compositeFirstResp e1 e2).serialize = (Ext.compositeExt e1 e2).serialize ∧
      (Ext.compositeSecondResp e1 e2).serialize = (Ext.compositeExt e1 e2).serialize ∧
      (Ext.compositeFirstResp e1 e2).do_send = (Ext.compositeExt e1 e2).do_send ∧
      (Ext.compositeSecondResp e1 e2).do_send = (Ext.compositeExt e1 e2).do_send) :=
  ⟨fun _ _ => ⟨rfl, rfl, rfl⟩, fun _ _ => ⟨rfl, rfl, rfl, rfl⟩⟩

/-- Enumeration `ChargeCommand` from `charge.rs` lines 79-87: four known command tokens,
a dedicated `Empty` variant for an absent text body, and a catch-all
`Unknown` carrying the verbatim unrecognized string. Equality is the derived
`PartialEq`/`Eq`. -/
inductive ChargeCommand where
  | create
  | renew
  | transfer
  | update
  | empty
  | unknown (s : String)
deriving DecidableEq, Repr

/-- The decode of the text body inside `ChargeCommand::deserialize`
(`charge.rs` lines 107-116): `take_str` yields `Some(value)` or `None`;
a present value is matched case-sensitively against the four literal tokens,
any other string becomes `Unknown(value)` unmodified, and an absent body
becomes `Empty`. -/
def ChargeCommand.decodeText : Option String → ChargeCommand
  | some v =>
      if v = "create" then .create
      else if v = "renew" then .renew
      else if v = "transfer" then .transfer
      else if v = "update" then .update
      else .unknown v
  | none => .empty

/-- The decode errors of `instant_xml::Error` used by this layer;
`duplicateValue` carries the field name (`Error::DuplicateValue(field)`). -/
inductive XmlError where
  | duplicateValue (field : String)
deriving DecidableEq, Repr

/-- Method `ChargeCommand::deserialize` (`charge.rs` lines 98-119): the accumulator
slot `into: &mut Option<ChargeCommand>` is checked first — if it is already
populated the call returns `Err(Error::DuplicateValue(field))` without
touching the slot; otherwise the slot is filled with the decoded value and
the call succeeds. The returned pair is (error if any, slot after the
call). -/
def ChargeCommand.deserialize (into : Option ChargeCommand) (field : String)
    (text : Option String) : Option XmlError × Option ChargeCommand :=
  if into.isSome then (some (.duplicateValue field), into)
  else (none, some (ChargeCommand.decodeText text))

/-- C6: decoding the charge command scalar into an empty slot yields a known
variant exactly when the wire text equals its literal token under
case-sensitive exact comparison, the `Empty` variant when the text body is
absent, and otherwise the catch-all `Unknown` carrying the original string
unmodified; `Empty` is distinct from `Unknown` and from every known
variant. -/
theorem charge_command_decode (s : String) :
    (ChargeCommand.decodeText (some s) = .create ↔ s = "create") ∧
    (ChargeCommand.decodeText (some s) = .renew ↔ s = "renew") ∧
    (ChargeCommand.decodeText (some s) = .transfer ↔ s = "transfer") ∧
    (ChargeCommand.decodeText (some s) = .update ↔ s = "update") ∧
    (s ≠ "create" → s ≠ "renew" → s ≠ "transfer" → s ≠ "update" →
      ChargeCommand.decodeText (some s) = .unknown s) ∧
    ChargeCommand.decodeText none = ChargeCommand.empty ∧
    (∀ t : String, ChargeCommand.empty ≠ ChargeCommand.unknown t) ∧
    ChargeCommand.empty ≠ ChargeCommand.create ∧
    ChargeCommand.empty ≠ ChargeCommand.renew ∧
    ChargeCommand.empty ≠ ChargeCommand.transfer ∧
    ChargeCommand.empty ≠ ChargeCommand.update := by
  have hd : ChargeCommand.decodeText (some s) =
      (if s = "create" then .create
       else if s = "renew" then .renew
       else if s = "transfer" then .transfer
       else if s = "update" then .update
       else .unknown s) := rfl
  refine ⟨?_, ?_, ?_, ?_, ?_, rfl, fun t => by simp, by simp, by simp, by simp, by simp⟩
  · rw [hd]; split_ifs with h1 h2 h3 h4 <;> simp_all
  · rw [hd]; split_ifs with h1 h2 h3 h4 <;> simp_all
  · rw [hd]; split_ifs with h1 h2 h3 h4 <;> simp_all
  · rw [hd]; split_ifs with h1 h2 h3 h4 <;> simp_all
  · intro c1 c2 c3 c4
    rw [hd]
    simp [c1, c2, c3, c4]

/-- Witness for C6 at a concrete non-matching token: "foobar" matches no
known literal and decodes to the catch-all carrying it verbatim. -/
theorem charge_command_decode_witness :
    ("foobar" ≠ "create" ∧ "foobar" ≠ "renew" ∧ "foobar" ≠ "transfer" ∧
      "foobar" ≠ "update") ∧
    ChargeCommand.decodeText (some ("foobar")) = ChargeCommand.unknown ("foobar") :=
  ⟨⟨by decide, by decide, by decide, by decide⟩,
   (charge_command_decode ("foobar")).2.2.2.2.1 (by decide) (by decide) (by decide) (by decide)⟩

/-- C7: a decode invocation into an already-populated slot fails with a
duplicate-value error naming the field, returned to the caller, and the slot
keeps its old value; an invocation into an empty slot never raises this
error and fills the slot with the decoded value. -/
theorem charge_command_duplicate (field : String) (c : ChargeCommand)
    (text : Option String) :
    ChargeCommand.deserialize (some c) field text =
      (some (.duplicateValue field), some c) ∧
    (ChargeCommand.deserialize none field text).1 = none ∧
    (ChargeCommand.deserialize none field text).2 =
      some (ChargeCommand.decodeText text) := by
  refine ⟨?_, ?_, ?_⟩ <;> simp [ChargeCommand.deserialize]

/-- Enumeration `PhaseType` from `launch.rs` lines 27-40: a closed `#[xml(scalar)]`
enumeration with tokens `sunrise`, `landrush`, `claims`, `open`, `custom`
(`open` is spelled `openPhase` here because `open` is a Lean keyword). It
has no variant carrying a string: there is no catch-all arm. -/
inductive PhaseType where
  | sunrise
  | landrush
  | claims
  | openPhase
  | custom
deriving DecidableEq, Repr

/-- Decoder of the derived scalar codec for `PhaseType`: the `FromXml`
derive for an `xml(scalar)` enum matches the wire token against the declared
rename literals and, the enum having no fallback arm, any other token is a
decode error (`none` here). -/
def PhaseType.fromStr (s : String) : Option PhaseType :=
  if s = "sunrise" then some .sunrise
  else if s = "landrush" then some .landrush
  else if s = "claims" then some .claims
  else if s = "open" then some .openPhase
  else if s = "custom" then some .custom
  else none

/-- Enumeration `PeriodUnit` from `fee.rs` lines 62-69 (and identically `fee07.rs` lines
31-38): a closed `#[xml(scalar)]` enumeration with tokens `y` and `m` and no
catch-all arm. -/
inductive PeriodUnit where
  | years
  | months
deriving DecidableEq, Repr

/-- Decoder of the derived scalar codec for `PeriodUnit`: declared rename
literals only, no fallback arm, so any other token is a decode error. -/
def PeriodUnit.fromStr (s : String) : Option PeriodUnit :=
  if s = "y" then some .years
  else if s = "m" then some .months
  else none

/-- Counterexample to C8: decoding the non-empty token "quiet" as a launch
phase fails (no value is produced), and decoding the non-empty token "d" as
a fee period unit fails — neither type preserves the unrecognized token in a
catch-all variant, contradicting the claim that no enumeration scalar in
this layer fails on an unrecognized token. -/
theorem scalar_catchall_counterexample :
    PhaseType.fromStr ("quiet") = none ∧ "quiet" ≠ "" ∧
    PeriodUnit.fromStr ("d") = none ∧ "d" ≠ "" := by
  refine ⟨?_, ?_, ?_, ?_⟩ <;> decide

/-- C8 amended: only the charge command enumeration carries a catch-all —
every non-matching non-empty token is preserved verbatim in `Unknown` —
while the launch phase type and the fee period unit are closed scalar
enumerations whose decoding succeeds exactly on the declared literal tokens
and fails on every other token. -/
theorem scalar_catchall_amended (s : String) :
    (s ≠ "create" → s ≠ "renew" → s ≠ "transfer" → s ≠ "update" →
      ChargeCommand.decodeText (some s) = ChargeCommand.unknown s) ∧
    ((PhaseType.fromStr s).isSome ↔
      (s = "sunrise" ∨ s = "landrush" ∨ s = "claims" ∨ s = "open" ∨ s = "custom")) ∧
    ((PeriodUnit.fromStr s).isSome ↔ (s = "y" ∨ s = "m")) := by
  refine ⟨?_, ?_, ?_⟩
  · intro c1 c2 c3 c4
    simp [ChargeCommand.decodeText, c1, c2, c3, c4]
  · unfold PhaseType.fromStr
    split_ifs with h1 h2 h3 h4 h5 <;> simp_all
  · unfold PeriodUnit.fromStr
    split_ifs with h1 h2 <;> simp_all

/-- Witness for the amended C8 at concrete tokens: "bogus" is preserved by
the charge command catch-all, while "sunrise" and "y" are accepted and
"bogus" is rejected by the closed enumerations. -/
theorem scalar_catchall_amended_witness :
    ChargeCommand.decodeText (some ("bogus")) = ChargeCommand.unknown ("bogus") ∧
    (PhaseType.fromStr ("sunrise")).isSome = true ∧
    (PeriodUnit.fromStr ("y")).isSome = true ∧
    (PhaseType.fromStr ("bogus")).isSome = false :=
  ⟨(scalar_catchall_amended ("bogus")).1 (by decide) (by decide) (by decide) (by decide),
   by decide, by decide, by decide⟩

/-- Constant `pub const XMLNS` of `fee.rs` line 7 (RFC 8748 namespace). -/
def fee.XMLNS : String := "urn:ietf:params:xml:ns:epp:fee-1.0"

/-- Constant `pub const XMLNS` of `fee07.rs` line 12 (pre-RFC8748 namespace). -/
def fee07.XMLNS : String := "urn:ietf:params:xml:ns:fee-0.7"

/-- Constant `pub const XMLNS` of `charge.rs` line 7. -/
def charge.XMLNS : String := "http://www.unitedtld.com/epp/charge-1.0"

/-- Constant `pub const XMLNS` of `launch.rs` line 11. -/
def launch.XMLNS : String := "urn:ietf:params:xml:ns:launch-1.0"

/-- A decoded extension fragment as a structured document subtree (spec
section 6): a namespace-qualified element with attributes, child elements in
document order, and optional direct text content. -/
inductive Xml where
  | node (ns name : String) (attrs : List (String × String))
      (children : List Xml) (text : Option String)

/-- The value of the attribute named `k`, if present. -/
def Xml.attr : Xml → String → Option String
  | .node _ _ attrs _ _, k => (attrs.find? (fun p => p.1 = k)).map Prod.snd

/-- The direct text content of the element, if present. -/
def Xml.text : Xml → Option String
  | .node _ _ _ _ t => t

/-- The child elements with the given namespace and name, in document
order. -/
def Xml.childrenNamed : Xml → String → String → List Xml
  | .node _ _ _ cs _, ns, n =>
      cs.filter (fun c => match c with | .node cns cn _ _ _ => cns = ns ∧ cn = n)

/-- Modelled from the spec: the scalar codec for boolean wire text used by
the generic marshalling engine (external collaborator, not under `src/`) —
the spec's example (section 8) requires the attribute text "1" to decode to
`true`; "0"/"false"/"true" follow xs:boolean. -/
def parseBool (s : String) : Option Bool :=
  if s = "1" ∨ s = "true" then some true
  else if s = "0" ∨ s = "false" then some false
  else none

def decDigit? (c : Char) : Option Nat :=
  if c.isDigit then some (c.toNat - 48) else none

def digitsToNat? (l : List Char) : Option Nat :=
  match l with
  | [] => none
  | _ => l.foldl (fun acc c => do
      let a ← acc
      let d ← decDigit? c
      pure (a * 10 + d)) (some 0)

/-- Split a character list at the decimal point. -/
def splitDotAux : List Char → List Char → List (List Char)
  | [], acc => [acc.reverse]
  | c :: rest, acc =>
      if c = '.' then acc.reverse :: splitDotAux rest []
      else splitDotAux rest (c :: acc)

/-- Modelled from the spec: standard floating-point text parsing of
direct-text numeric fields, which must round-trip the canonical two-decimal
currency formats without precision loss (section 4.2); such amounts are
represented exactly over the rationals: `d.f` denotes `(d*10^k + f) /
10^k`. -/
def parseDecimal (s : String) : Option ℚ :=
  match splitDotAux s.data [] with
  | [i] => (digitsToNat? i).map (fun n => (n : ℚ))
  | [i, f] => do
      let ip ← digitsToNat? i
      let fp ← digitsToNat? f
      pure (mkRat (ip * 10 ^ f.length + fp) (10 ^ f.length))
  | _ => none

/-- Modelled from the spec: decode of a `u16` direct-text value (the period
value); out-of-range numerals are a decode error. -/
def parseU16 (s : String) : Option Nat := do
  let n ← digitsToNat? s.data
  if n < 65536 then pure n else none

/-- Modelled from the spec: an optional boolean attribute — absent decodes
to `none`, present text must parse as a boolean (section 4.2). -/
def decodeOptBoolAttr (x : Xml) (k : String) : Option (Option Bool) :=
  match x.attr k with
  | none => some none
  | some s => (parseBool s).map some

/-- Modelled from the spec: an optional (zero-or-one) child element — more
than one occurrence is a duplicate-value decode error (section 7a). -/
def decodeOptChild (x : Xml) (ns n : String) : Option (Option Xml) :=
  match x.childrenNamed ns n with
  | [] => some none
  | [c] => some (some c)
  | _ => none

/-- Modelled from the spec: a required scalar child element carrying its
value as direct text — exactly one occurrence with a text body. -/
def decodeChildText (x : Xml) (ns n : String) : Option String := do
  let c ← match x.childrenNamed ns n with
    | [c] => some c
    | _ => none
  c.text

/-- Struct `Period` from `fee.rs` lines 52-60: `unit` attribute and `u16` direct
text value. -/
structure Period where
  unit : PeriodUnit
  value : Nat
deriving DecidableEq, Repr

/-- Struct `Fee` from `fee.rs` lines 180-194: optional `description`, `refundable`
and `grace-period` attributes and the numeric amount as direct text. -/
structure Fee where
  description : Option String
  refundable : Option Bool
  grace_period : Option String
  amount : ℚ
deriving DecidableEq, Repr

/-- Struct `Credit` from `fee.rs` lines 196-204. -/
structure Credit where
  description : Option String
  amount : ℚ
deriving DecidableEq, Repr

/-- Struct `CommandResp` from `fee.rs` lines 147-178: one per-command entry of a
fee-1.0 check reply (`class` fields elsewhere are spelled `class_` because
`class` is a Lean keyword). -/
structure CommandResp where
  name : String
  phase : Option String
  subphase : Option String
  standard : Option Bool
  period : Option Period
  fees : List Fee
  credits : List Credit
  reason : Option String
deriving DecidableEq, Repr

/-- Struct `CheckDomainData` from `fee.rs` lines 127-144. -/
structure CheckDomainData where
  avail : Option Bool
  obj_id : String
  class_ : Option String
  commands : List CommandResp
deriving DecidableEq, Repr

/-- Struct `CheckData` from `fee.rs` lines 114-124: the fee-1.0 `<fee:chkData>`
response payload. -/
structure CheckData where
  currency : String
  list : List CheckDomainData
deriving DecidableEq, Repr

/-- Decoder for `Period` per its field bindings (`fee.rs` lines 52-60); the
generic attribute/direct-text mapping is modelled from the spec (section
4.2). -/
def Period.fromXml (x : Xml) : Option Period := do
  let u ← x.attr ("unit")
  let unit ← PeriodUnit.fromStr u
  let t ← x.text
  let value ← parseU16 t
  pure { unit := unit, value := value }

/-- Decoder for `Fee` per its field bindings (`fee.rs` lines 180-194). -/
def Fee.fromXml (x : Xml) : Option Fee := do
  let refundable ← decodeOptBoolAttr x ("refundable")
  let t ← x.text
  let amount ← parseDecimal t
  pure { description := x.attr ("description"), refundable := refundable,
         grace_period := x.attr ("grace-period"), amount := amount }

/-- Decoder for `Credit` per its field bindings (`fee.rs` lines 196-204). -/
def Credit.fromXml (x : Xml) : Option Credit := do
  let t ← x.text
  let amount ← parseDecimal t
  pure { description := x.attr ("description"), amount := amount }

/-- Decoder for `CommandResp` per its field bindings (`fee.rs` lines
147-178): `name`, `phase`, `subphase`, `standard` attributes; optional
`period` child; repeated `fee` and `credit` children in document order;
optional `reason` child. -/
def CommandResp.fromXml (x : Xml) : Option CommandResp := do
  let name ← x.attr ("name")
  let standard ← decodeOptBoolAttr x ("standard")
  let pc ← decodeOptChild x fee.XMLNS ("period")
  let period ← match pc with
    | none => some none
    | some p => (Period.fromXml p).map some
  let fees ← (x.childrenNamed fee.XMLNS ("fee")).mapM Fee.fromXml
  let credits ← (x.childrenNamed fee.XMLNS ("credit")).mapM Credit.fromXml
  let rc ← decodeOptChild x fee.XMLNS ("reason")
  let reason ← match rc with
    | none => some none
    | some r => r.text.map some
  pure { name := name, phase := x.attr ("phase"), subphase := x.attr ("subphase"),
         standard := standard, period := period, fees := fees,
         credits := credits, reason := reason }

/-- Decoder for `CheckDomainData` per its field bindings (`fee.rs` lines
127-144). -/
def CheckDomainData.fromXml (x : Xml) : Option CheckDomainData := do
  let avail ← decodeOptBoolAttr x ("avail")
  let obj_id ← decodeChildText x fee.XMLNS ("objID")
  let cc ← decodeOptChild x fee.XMLNS ("class")
  let class_ ← match cc with
    | none => some none
    | some c => c.text.map some
  let commands ← (x.childrenNamed fee.XMLNS ("command")).mapM CommandResp.fromXml
  pure { avail := avail, obj_id := obj_id, class_ := class_, commands := commands }

/-- Decoder for `CheckData` per its field bindings (`fee.rs` lines 114-124):
the subtree must be the namespace-qualified `<fee:chkData>` element of the
fee-1.0 namespace. -/
def CheckData.fromXml (x : Xml) : Option CheckData :=
  match x with
  | .node ns n _ _ _ =>
      if ns = fee.XMLNS ∧ n = "chkData" then do
        let currency ← decodeChildText x fee.XMLNS ("currency")
        let list ← (x.childrenNamed fee.XMLNS ("cd")).mapM CheckDomainData.fromXml
        pure { currency := currency, list := list }
      else none

/-- The concrete fee-1.0 check reply of the spec's example (section 8): a
fee of 99.00 under command "create" with attribute standard="1" and no
credits. -/
def feeReplyDoc : Xml :=
  .node fee.XMLNS ("chkData") []
    [ .node fee.XMLNS ("currency") [] [] (some ("USD")),
      .node fee.XMLNS ("cd") [("avail", "1")]
        [ .node fee.XMLNS ("objID") [] [] (some ("example.com")),
          .node fee.XMLNS ("command") [("name", "create"), ("standard", "1")]
            [ .node fee.XMLNS ("fee") [] [] (some ("99.00")) ] none ]
        none ]
    none

/-- C9: decoding the example fee-1.0 check reply yields a response whose
single command entry has name "create", standard true, fees [99.00] and no
credits; decoding is a pure function of the document, so decoding the same
document a second time yields a value identical to the first. -/
theorem fee_check_reply_decode :
    CheckData.fromXml feeReplyDoc =
      some { currency := "USD",
             list := [{ avail := some true, obj_id := "example.com",
                        class_ := none,
                        commands := [{ name := "create", phase := none,
                                       subphase := none, standard := some true,
                                       period := none,
                                       fees := [{ description := none,
                                                  refundable := none,
                                                  grace_period := none,
                                                  amount := 99 }],
                                       credits := [], reason := none }] }] } ∧
    CheckData.fromXml feeReplyDoc = CheckData.fromXml feeReplyDoc :=
  ⟨by decide, rfl⟩

/-- C10: the fee-1.0 and fee-0.7 namespace identifiers are the fixed string
constants of their schemas and are distinct, never conflated. -/
theorem namespace_constants :
    fee.XMLNS = "urn:ietf:params:xml:ns:epp:fee-1.0" ∧
    fee07.XMLNS = "urn:ietf:params:xml:ns:fee-0.7" ∧
    fee.XMLNS ≠ fee07.XMLNS :=
  ⟨rfl, rfl, by decide⟩

end InstantEpp
